import Mathlib

/-!
# Verification of the kash-flow-backend sales analytics engine

Shallow embedding of `src/app/analytics.py` (`get_analytics`) in Lean 4.

Modelling conventions:
* Currency amounts (Python floats) are embedded as rationals `ℚ`; `round(x, n)`
  (Python's banker's rounding) is `pyRound n x`.
* Calendar days are integers (days since an arbitrary epoch); the code's
  `"YYYY-MM-DD"` strings are in order-preserving bijection with these.
* Raw timestamps are abstracted by the behaviour of the two parsers the code
  uses: `dateutil.parser.parse` in the daily-bucket loop and
  `datetime.fromisoformat` in the hourly loop.  Each `Timestamp` constructor
  is one behavioural class of input strings (see the constructor comments for
  the concrete Python facts it encodes).
* The Supabase fetches are outside the engine (the code degrades them to empty
  batches); `getAnalytics` here takes the two already-fetched batches.
* Python exceptions that escape `get_analytics` (e.g. `float(...)` on a
  non-numeric `cost_price` in the un-guarded total-profit loop) are embedded
  with `Except String`.
-/

namespace KashFlow

/-- A raw sale-event timestamp, abstracted by how the two parsers used in
`analytics.py` behave on it.

* `empty`: the empty/absent string. The daily loop skips it (`if not ts`);
  `datetime.fromisoformat("")` raises, so the hourly loop skips it too.
* `isoT wallDay wallHour wallMin tzOffsetMin`: an ISO-8601 string containing
  `'T'` (e.g. `"2024-01-05T13:00:00+05:00"`). Both `dateutil.parser.parse`
  and `datetime.fromisoformat` (after `Z → +00:00`) parse it to a datetime
  whose wall-clock fields are `wallDay`/`wallHour`/`wallMin` and whose
  `tzinfo` is the fixed offset `tzOffsetMin` minutes east of UTC
  (`none` = timezone-naive).
* `dateOnly day`: a plain `"YYYY-MM-DD"` string. `dateutil` parses it to
  midnight (naive) of `day`; the hourly loop takes `fromisoformat(ts[:10])`,
  midnight of `day`, so `dt.hour = 0`.
* `general wallDay wallHour wallMin tzOffsetMin`: a string `dateutil` parses
  but `fromisoformat` rejects both in full and on its first ten characters
  (e.g. `"01/05/2024 13:00"`: `dateutil.parser.parse` gives
  2024-05-01 13:00 naive; `fromisoformat("01/05/2024 13:00")` and
  `fromisoformat("01/05/2024")` both raise `ValueError`).
* `unparseable`: a string both parsers reject (e.g. `"invalid-date"`). -/
inductive Timestamp where
  | empty : Timestamp
  | isoT (wallDay : Int) (wallHour : Nat) (wallMin : Nat)
      (tzOffsetMin : Option Int) : Timestamp
  | dateOnly (day : Int) : Timestamp
  | general (wallDay : Int) (wallHour : Nat) (wallMin : Nat)
      (tzOffsetMin : Option Int) : Timestamp
  | unparseable : Timestamp
  deriving DecidableEq, Repr

/-- A product's raw `cost_price` field as stored.  `nonNumeric` stands for a
non-empty string `float` cannot convert (e.g. `"abc"`). -/
inductive CostVal where
  | missing : CostVal
  | null : CostVal
  | num (q : ℚ) : CostVal
  | nonNumeric : CostVal
  deriving DecidableEq, Repr

/-- One row of the `sales` batch (`id, product_id, quantity_sold, total_price,
timestamp`); the numeric fields are modelled as already well-typed since only
timestamp and cost malformation are exercised by the spec. -/
structure Sale where
  product_id : Int
  quantity_sold : Int
  total_price : ℚ
  timestamp : Timestamp
  deriving DecidableEq, Repr

/-- One row of the `products` batch (`id, name, sku, price, cost_price`). -/
structure Product where
  id : Int
  name : String
  sku : Option String
  price : ℚ
  cost_price : CostVal
  deriving DecidableEq, Repr

/-- `float(product.get("cost_price", 0) or 0)`: a missing key defaults to `0`,
`None or 0` is `0`, a numeric value passes through, and `float` on a
non-numeric string raises `ValueError`. -/
def costOf : CostVal → Except String ℚ
  | CostVal.missing => Except.ok 0
  | CostVal.null => Except.ok 0
  | CostVal.num q => Except.ok q
  | CostVal.nonNumeric => Except.error "ValueError: could not convert string to float"

/-- The `products = {p["id"]: p for p in ...}` dict followed by
`products.get(pid)`: on duplicate ids the later row wins. -/
def lookupProduct (products : List Product) (pid : Int) : Option Product :=
  products.reverse.find? (fun p => p.id == pid)

/-- Floor of a rational (`q.den` is positive, so `fdiv` floors). -/
def ratFloor (q : ℚ) : Int := q.num.fdiv q.den

/-- Round a rational to the nearest integer, ties to even — the rounding mode
of Python 3's built-in `round`. -/
def roundHalfEven (q : ℚ) : Int :=
  let f := ratFloor q
  let r := q - (f : ℚ)
  if r < 1/2 then f
  else if 1/2 < r then f + 1
  else if f % 2 = 0 then f else f + 1

/-- Python's `round(x, ndigits)` on our rational embedding of floats. -/
def pyRound (ndigits : Nat) (q : ℚ) : ℚ :=
  (roundHalfEven (q * (10 : ℚ) ^ ndigits) : ℚ) / (10 : ℚ) ^ ndigits

/-- Minutes since epoch of the UTC instant denoted by wall-clock fields plus
an optional fixed offset.  A naive datetime is `replace(tzinfo=utc)` (wall
time taken as UTC); an aware one is `astimezone(utc)` (subtract the offset). -/
def utcMinutes (wallDay : Int) (wallHour wallMin : Nat) (tzOffsetMin : Option Int) : Int :=
  wallDay * 1440 + (wallHour : Int) * 60 + (wallMin : Int) - tzOffsetMin.getD 0

/-- The daily-bucket loop's timestamp handling (analytics.py lines 117-144):
`dateutil.parser.parse`, naive → assume UTC, aware → convert to UTC, then take
the UTC calendar day.  `none` means the sale is skipped (`continue`). -/
def dailyParse : Timestamp → Option Int
  | Timestamp.empty => none
  | Timestamp.isoT d h m off => some ((utcMinutes d h m off).fdiv 1440)
  | Timestamp.dateOnly d => some d
  | Timestamp.general d h m off => some ((utcMinutes d h m off).fdiv 1440)
  | Timestamp.unparseable => none

/-- The hourly loop's timestamp handling (analytics.py lines 247-267): strings
with `'T'` go through `fromisoformat` and contribute `dt.hour` — the literal
wall-clock hour, with NO conversion to UTC; strings without `'T'` go through
`fromisoformat(ts[:10])`, yielding midnight, hour `0`; any parse failure is
swallowed by the bare `except` (`none`). -/
def hourlyParse : Timestamp → Option Nat
  | Timestamp.empty => none
  | Timestamp.isoT _ h _ _ => some h
  | Timestamp.dateOnly _ => some 0
  | Timestamp.general _ _ _ _ => none
  | Timestamp.unparseable => none

/-- `total_revenue = sum(float(s.get("total_price", 0)) for s in sales)`. -/
def totalRevenueQ (sales : List Sale) : ℚ :=
  (sales.map (fun s => s.total_price)).sum

/-- One iteration of the total-profit loop (analytics.py lines 103-111):
sales whose product is not in the catalog are skipped (`if product:`);
`float` on a non-numeric `cost_price` raises out of `get_analytics`
(this loop has no `try`). -/
def tpStep (products : List Product) (acc : ℚ) (s : Sale) : Except String ℚ :=
  match lookupProduct products s.product_id with
  | none => Except.ok acc
  | some p => do
      let cost ← costOf p.cost_price
      Except.ok (acc + (s.total_price - cost * (s.quantity_sold : ℚ)))

/-- The whole total-profit loop. -/
def totalProfit (products : List Product) (sales : List Sale) : Except String ℚ :=
  sales.foldlM (tpStep products) 0

/-- One day bucket of the `daily_data` dict. -/
structure DayData where
  revenue : ℚ
  profit : ℚ
  count : Nat
  deriving DecidableEq, Repr

def emptyDay : DayData := ⟨0, 0, 0⟩

/-- Lookup in an insertion-ordered association list (a Python dict). -/
def dictGet {κ β : Type} [BEq κ] (m : List (κ × β)) (k : κ) : Option β :=
  (m.find? (fun kv => kv.1 == k)).map (fun kv => kv.2)

/-- In-place value update of a dict key (keys unchanged). -/
def dictSet {κ β : Type} [BEq κ] (m : List (κ × β)) (k : κ) (v : β) : List (κ × β) :=
  m.map (fun kv => if kv.1 == k then (k, v) else kv)

/-- `daily_data[day]` lookup. -/
def getDay (m : List (Int × DayData)) (k : Int) : Option DayData := dictGet m k

/-- `daily_data[day] = v` update. -/
def setDay (m : List (Int × DayData)) (k : Int) (v : DayData) : List (Int × DayData) :=
  dictSet m k v

/-- One iteration of the daily-bucket loop (analytics.py lines 117-164) for a
single sale.  Mirrors the mutation order: after a successful parse the day's
`revenue` and `count` are updated first; if the product lookup succeeds but
`float(cost_price)` then raises, the per-sale `except` catches it, leaving the
revenue/count update in place but the profit not added. -/
def dailyStep (products : List Product) (m : List (Int × DayData)) (s : Sale) :
    List (Int × DayData) :=
  match dailyParse s.timestamp with
  | none => m
  | some day =>
    let m1 := if (getDay m day).isSome then m else m ++ [(day, emptyDay)]
    let d0 := (getDay m1 day).getD emptyDay
    let d1 : DayData :=
      { d0 with revenue := d0.revenue + s.total_price, count := d0.count + 1 }
    let m2 := setDay m1 day d1
    match lookupProduct products s.product_id with
    | none => m2
    | some p =>
      match costOf p.cost_price with
      | Except.error _ => m2
      | Except.ok cost =>
          setDay m2 day
            { d1 with profit := d1.profit + (s.total_price - cost * (s.quantity_sold : ℚ)) }

/-- The `daily_data` dict after the whole loop. -/
def dailyData (products : List Product) (sales : List Sale) : List (Int × DayData) :=
  sales.foldl (dailyStep products) []

/-- One emitted `SalesTrend` entry (`date` as an epoch day number). -/
structure SalesTrend where
  date : Int
  revenue : ℚ
  profit : ℚ
  sales_count : Nat
  deriving DecidableEq, Repr

/-- The zero-filling loop (analytics.py lines 183-202): one entry per calendar
day from `startDay` to `endDay` inclusive, in ascending order; days present in
`daily_data` are emitted rounded to 2 decimals, the rest as zeros. -/
def salesTrendsOf (m : List (Int × DayData)) (startDay endDay : Int) : List SalesTrend :=
  (List.range (endDay + 1 - startDay).toNat).map
    (fun (i : Nat) =>
      let day : Int := startDay + (i : Int)
      match getDay m day with
      | some d => ⟨day, pyRound 2 d.revenue, pyRound 2 d.profit, d.count⟩
      | none => ⟨day, 0, 0, 0⟩)

/-- `max(daily_data.items(), key=lambda x: x[1]["revenue"])`: the first item
attaining the maximum (CPython replaces the champion only on strictly
greater). -/
def maxByRevenue : List (Int × DayData) → Option (Int × DayData)
  | [] => none
  | x :: xs =>
      some (xs.foldl (fun best y => if y.2.revenue > best.2.revenue then y else best) x)

/-- `min(daily_data.items(), key=...)`: first item attaining the minimum. -/
def minByRevenue : List (Int × DayData) → Option (Int × DayData)
  | [] => none
  | x :: xs =>
      some (xs.foldl (fun best y => if y.2.revenue < best.2.revenue then y else best) x)

/-- The trend computation (analytics.py lines 207-214), over the already
zero-filled, 2-decimal-rounded trend entries. -/
def revenueTrend (trends : List SalesTrend) : ℚ :=
  if trends.length ≥ 2 then
    let firstHalf := trends.take (trends.length / 2)
    let secondHalf := trends.drop (trends.length / 2)
    let firstAvg :=
      if firstHalf.length > 0 then
        (firstHalf.map (fun t => t.revenue)).sum / (firstHalf.length : ℚ)
      else 0
    let secondAvg :=
      if secondHalf.length > 0 then
        (secondHalf.map (fun t => t.revenue)).sum / (secondHalf.length : ℚ)
      else 0
    if firstAvg > 0 then ((secondAvg - firstAvg) / firstAvg) * 100 else 0
  else 0

/-- One per-product accumulator of the `product_stats` dict. -/
structure ProdStat where
  sold : Int
  revenue : ℚ
  profit : ℚ
  deriving DecidableEq, Repr

def emptyStat : ProdStat := ⟨0, 0, 0⟩

/-- Dict lookup for `product_stats`. -/
def getStat (m : List (Int × ProdStat)) (k : Int) : Option ProdStat := dictGet m k

/-- In-place value update for `product_stats`. -/
def setStat (m : List (Int × ProdStat)) (k : Int) (v : ProdStat) :
    List (Int × ProdStat) :=
  dictSet m k v

/-- One iteration of the product-stats loop (analytics.py lines 217-231):
quantity and revenue accumulate for every sale; profit accumulates as
`(price - cost) * qty` — the product's CURRENT price times quantity minus
cost times quantity — and only when the product is found.  `float` on a
non-numeric `cost_price` raises out of `get_analytics` (no `try` here). -/
def productStep (products : List Product) (m : List (Int × ProdStat)) (s : Sale) :
    Except String (List (Int × ProdStat)) :=
  let pid := s.product_id
  let m1 := if (getStat m pid).isSome then m else m ++ [(pid, emptyStat)]
  let st0 := (getStat m1 pid).getD emptyStat
  let st1 : ProdStat :=
    { st0 with sold := st0.sold + s.quantity_sold, revenue := st0.revenue + s.total_price }
  let m2 := setStat m1 pid st1
  match lookupProduct products pid with
  | none => Except.ok m2
  | some p => do
      let cost ← costOf p.cost_price
      Except.ok (setStat m2 pid
        { st1 with profit := st1.profit + (p.price - cost) * (s.quantity_sold : ℚ) })

/-- The `product_stats` dict after the whole loop. -/
def productStats (products : List Product) (sales : List Sale) :
    Except String (List (Int × ProdStat)) :=
  sales.foldlM (productStep products) []

/-- Stable insertion of an entry into a revenue-descending list: the entry
goes after strictly greater revenues and before equal ones it preceded. -/
def insertDesc (x : Int × ProdStat) : List (Int × ProdStat) → List (Int × ProdStat)
  | [] => [x]
  | y :: ys => if y.2.revenue > x.2.revenue then y :: insertDesc x ys else x :: y :: ys

/-- `sorted(product_stats.items(), key=lambda x: x[1]["revenue"], reverse=True)`:
a stable sort, descending by accumulated revenue. -/
def sortByRevenueDesc (l : List (Int × ProdStat)) : List (Int × ProdStat) :=
  l.foldr insertDesc []

/-- One emitted `TopProduct` entry. -/
structure TopProduct where
  product_id : Int
  name : String
  sku : Option String
  total_sold : Int
  total_revenue : ℚ
  total_profit : ℚ
  deriving DecidableEq, Repr

/-- `products.get(pid, {})` rendering of one ranked product (analytics.py
lines 235-244): name falls back to `"Product #<pid>"`, sku to absent. -/
def mkTopProduct (products : List Product) (e : Int × ProdStat) : TopProduct :=
  match lookupProduct products e.1 with
  | some p => ⟨e.1, p.name, p.sku, e.2.sold, pyRound 2 e.2.revenue, pyRound 2 e.2.profit⟩
  | none => ⟨e.1, "Product #" ++ toString e.1, none, e.2.sold,
      pyRound 2 e.2.revenue, pyRound 2 e.2.profit⟩

/-- The `top_products` list: sort descending by revenue, take 10, render. -/
def topProductsOf (products : List Product) (stats : List (Int × ProdStat)) :
    List TopProduct :=
  ((sortByRevenueDesc stats).take 10).map (mkTopProduct products)

/-- One hour bucket of the `hourly_data` dict. -/
structure HourData where
  count : Nat
  revenue : ℚ
  deriving DecidableEq, Repr

/-- One iteration of the hourly loop (analytics.py lines 247-272): a parsed
hour increments that bucket; a parse failure, or an hour key outside the
pre-initialized `0..23` (impossible for a real parsed datetime, a `KeyError`
swallowed by the bare `except` otherwise), leaves the dict unchanged. -/
def hourlyStep (m : List (Nat × HourData)) (s : Sale) : List (Nat × HourData) :=
  match hourlyParse s.timestamp with
  | none => m
  | some h =>
      m.map (fun kv =>
        if kv.1 == h then (kv.1, ⟨kv.2.count + 1, kv.2.revenue + s.total_price⟩) else kv)

/-- The `hourly_data` dict: 24 buckets pre-initialized at hours `0..23`
(`{h: ... for h in range(24)}`), then folded over the sales. -/
def hourlyData (sales : List Sale) : List (Nat × HourData) :=
  sales.foldl hourlyStep ((List.range 24).map (fun h => (h, ⟨0, 0⟩)))

/-- One emitted `HourlySales` entry. -/
structure HourlySales where
  hour : Nat
  sales_count : Nat
  revenue : ℚ
  deriving DecidableEq, Repr

/-- `hourly_breakdown`: the buckets in ascending hour order (`sorted` over a
dict whose insertion order is already `0..23`), revenue rounded. -/
def hourlyBreakdownOf (m : List (Nat × HourData)) : List HourlySales :=
  m.map (fun kv => ⟨kv.1, kv.2.count, pyRound 2 kv.2.revenue⟩)

/-- The root output of `get_analytics` (the `AnalyticsSummary` pydantic
model); `best_day`/`worst_day` carry epoch day numbers. -/
structure AnalyticsSummary where
  period_days : Nat
  total_revenue : ℚ
  total_profit : ℚ
  total_sales : Nat
  avg_transaction_value : ℚ
  profit_margin : ℚ
  best_day : Option Int
  best_day_revenue : ℚ
  worst_day : Option Int
  worst_day_revenue : ℚ
  revenue_trend : ℚ
  sales_trends : List SalesTrend
  top_products : List TopProduct
  hourly_breakdown : List HourlySales
  deriving DecidableEq, Repr

/-- The summary returned by the early `if not sales:` branch (analytics.py
lines 90-98): explicit zeros plus the pydantic field defaults — in particular
`sales_trends`, `top_products` and `hourly_breakdown` are EMPTY lists. -/
def emptySummary (days : Nat) : AnalyticsSummary :=
  ⟨days, 0, 0, 0, 0, 0, none, 0, none, 0, 0, [], [], []⟩

/-- The whole engine (`get_analytics`), over already-fetched batches.  The
window is `[endDay - days, endDay]`: the code sets `end_date = now(utc)` and
`start_date = end_date - timedelta(days=days)`, whose UTC calendar days are
exactly `days` apart. -/
def getAnalytics (sales : List Sale) (products : List Product)
    (endDay : Int) (days : Nat) : Except String AnalyticsSummary :=
  if sales.isEmpty then Except.ok (emptySummary days)
  else do
    let startDay := endDay - (days : Int)
    let total_revenue := totalRevenueQ sales
    let total_sales := sales.length
    let total_profit ← totalProfit products sales
    let avg_transaction :=
      if total_sales > 0 then total_revenue / (total_sales : ℚ) else 0
    let profit_margin :=
      if total_revenue > 0 then total_profit / total_revenue * 100 else 0
    let daily := dailyData products sales
    let trends := salesTrendsOf daily startDay endDay
    let best := maxByRevenue daily
    let worst := minByRevenue daily
    let trend := revenueTrend trends
    let stats ← productStats products sales
    let top := topProductsOf products stats
    let hourly := hourlyBreakdownOf (hourlyData sales)
    Except.ok
      { period_days := days
        total_revenue := pyRound 2 total_revenue
        total_profit := pyRound 2 total_profit
        total_sales := total_sales
        avg_transaction_value := pyRound 2 avg_transaction
        profit_margin := pyRound 1 profit_margin
        best_day := best.map (fun b => b.1)
        best_day_revenue := match best with | some b => pyRound 2 b.2.revenue | none => 0
        worst_day := worst.map (fun w => w.1)
        worst_day_revenue := match worst with | some w => pyRound 2 w.2.revenue | none => 0
        revenue_trend := pyRound 1 trend
        sales_trends := trends
        top_products := top
        hourly_breakdown := hourly }

/-! ## Pure counterparts of the two fallible loops

`costOf` can only fail on a `nonNumeric` cost.  Whenever `get_analytics`
returns normally, the two un-guarded loops are equivalent to the pure folds
below, which the claim theorems are phrased against. -/

/-- The rational a convertible `cost_price` resolves to (`0` for missing and
null, the number itself otherwise). -/
def costQ : CostVal → ℚ
  | CostVal.missing => 0
  | CostVal.null => 0
  | CostVal.num q => q
  | CostVal.nonNumeric => 0

/-- No product in the batch has a `cost_price` that `float` cannot convert. -/
def NoBadCost (products : List Product) : Prop :=
  ∀ p ∈ products, p.cost_price ≠ CostVal.nonNumeric

/-- One sale's contribution to `total_profit`: `gross − cost × qty` when the
product is in the catalog, `0` otherwise. -/
def saleProfit (products : List Product) (s : Sale) : ℚ :=
  match lookupProduct products s.product_id with
  | none => 0
  | some p => s.total_price - costQ p.cost_price * (s.quantity_sold : ℚ)

/-- Pure value of the total-profit loop. -/
def totalProfitQ (products : List Product) (sales : List Sale) : ℚ :=
  (sales.map (saleProfit products)).sum

/-- One sale's contribution to a product's `profit` accumulator in the
ranking loop: `(current price − cost) × qty` when the product is in the
catalog, `0` otherwise. -/
def rankProfitContrib (products : List Product) (pid : Int) (qty : Int) : ℚ :=
  match lookupProduct products pid with
  | none => 0
  | some p => (p.price - costQ p.cost_price) * (qty : ℚ)

/-- Pure value of one ranking-loop iteration. -/
def productStepQ (products : List Product) (m : List (Int × ProdStat)) (s : Sale) :
    List (Int × ProdStat) :=
  let pid := s.product_id
  let m1 := if (getStat m pid).isSome then m else m ++ [(pid, emptyStat)]
  let st0 := (getStat m1 pid).getD emptyStat
  let st1 : ProdStat :=
    { st0 with sold := st0.sold + s.quantity_sold, revenue := st0.revenue + s.total_price }
  let m2 := setStat m1 pid st1
  match lookupProduct products pid with
  | none => m2
  | some p =>
      setStat m2 pid
        { st1 with profit := st1.profit + (p.price - costQ p.cost_price) * (s.quantity_sold : ℚ) }

/-- Pure value of the whole ranking loop. -/
def productStatsQ (products : List Product) (sales : List Sale) :
    List (Int × ProdStat) :=
  sales.foldl (productStepQ products) []

/-- The summary `get_analytics` produces on a nonempty batch, written with
the pure folds (see `getAnalytics_ok`). -/
def getAnalyticsPure (sales : List Sale) (products : List Product)
    (endDay : Int) (days : Nat) : AnalyticsSummary :=
  let startDay := endDay - (days : Int)
  let daily := dailyData products sales
  let trends := salesTrendsOf daily startDay endDay
  let best := maxByRevenue daily
  let worst := minByRevenue daily
  { period_days := days
    total_revenue := pyRound 2 (totalRevenueQ sales)
    total_profit := pyRound 2 (totalProfitQ products sales)
    total_sales := sales.length
    avg_transaction_value :=
      pyRound 2 (if sales.length > 0 then totalRevenueQ sales / (sales.length : ℚ) else 0)
    profit_margin :=
      pyRound 1 (if totalRevenueQ sales > 0 then
        totalProfitQ products sales / totalRevenueQ sales * 100 else 0)
    best_day := best.map (fun b => b.1)
    best_day_revenue := match best with | some b => pyRound 2 b.2.revenue | none => 0
    worst_day := worst.map (fun w => w.1)
    worst_day_revenue := match worst with | some w => pyRound 2 w.2.revenue | none => 0
    revenue_trend := pyRound 1 (revenueTrend trends)
    sales_trends := trends
    top_products := topProductsOf products (productStatsQ products sales)
    hourly_breakdown := hourlyBreakdownOf (hourlyData sales) }

/-! ## Bridging the fallible folds to their pure counterparts -/

theorem exceptBind_ok {α β ε : Type} (c : α) (f : α → Except ε β) :
    (Except.ok c >>= f) = f c := rfl

theorem exceptBind_error {α β ε : Type} (msg : ε) (f : α → Except ε β) :
    ((Except.error msg : Except ε α) >>= f) = Except.error msg := rfl

theorem exceptPure {α ε : Type} (a : α) : (pure a : Except ε α) = Except.ok a := rfl

theorem costOf_ok_eq {cv : CostVal} {c : ℚ} (h : costOf cv = Except.ok c) :
    c = costQ cv := by
  cases cv <;> simp [costOf, costQ] at h ⊢ <;> exact h.symm

theorem costOf_of_notBad {cv : CostVal} (h : cv ≠ CostVal.nonNumeric) :
    costOf cv = Except.ok (costQ cv) := by
  cases cv <;> simp_all [costOf, costQ]

theorem tpStep_ok {products : List Product} {acc tp : ℚ} {s : Sale}
    (h : tpStep products acc s = Except.ok tp) :
    tp = acc + saleProfit products s := by
  unfold tpStep at h
  split at h
  · cases h
    rename_i hl
    simp [saleProfit, hl]
  · rename_i p hl
    cases hc : costOf p.cost_price with
    | error e =>
        rw [hc, exceptBind_error] at h
        cases h
    | ok c =>
        rw [hc, exceptBind_ok] at h
        cases h
        rw [costOf_ok_eq hc]
        simp [saleProfit, hl]

theorem lookupProduct_mem {products : List Product} {pid : Int} {p : Product}
    (h : lookupProduct products pid = some p) : p ∈ products := by
  have hmem := List.mem_of_find?_eq_some h
  exact (List.mem_reverse).1 hmem

theorem tpStep_notBad {products : List Product} (hnb : NoBadCost products)
    (acc : ℚ) (s : Sale) :
    tpStep products acc s = Except.ok (acc + saleProfit products s) := by
  unfold tpStep
  cases hl : lookupProduct products s.product_id with
  | none => simp [saleProfit, hl]
  | some p =>
      have hp : p ∈ products := lookupProduct_mem hl
      simp only [hl]
      rw [costOf_of_notBad (hnb p hp), exceptBind_ok]
      simp [saleProfit, hl]

theorem totalProfit_go {products : List Product} (sales : List Sale) :
    ∀ (acc tp : ℚ),
      sales.foldlM (tpStep products) acc = Except.ok tp →
      tp = acc + totalProfitQ products sales := by
  induction sales with
  | nil =>
      intro acc tp h
      rw [List.foldlM_nil, exceptPure] at h
      cases h
      simp [totalProfitQ]
  | cons s rest ih =>
      intro acc tp h
      rw [List.foldlM_cons] at h
      cases hs : tpStep products acc s with
      | error e =>
          rw [hs, exceptBind_error] at h
          cases h
      | ok a1 =>
          rw [hs, exceptBind_ok] at h
          have h1 := ih a1 tp h
          rw [h1, tpStep_ok hs]
          simp [totalProfitQ]
          ring

theorem totalProfit_ok {products : List Product} {sales : List Sale} {tp : ℚ}
    (h : totalProfit products sales = Except.ok tp) :
    tp = totalProfitQ products sales := by
  have := totalProfit_go sales 0 tp h
  simpa using this

theorem totalProfit_notBad {products : List Product} (hnb : NoBadCost products)
    (sales : List Sale) :
    totalProfit products sales = Except.ok (totalProfitQ products sales) := by
  unfold totalProfit
  suffices hgen : ∀ acc : ℚ,
      sales.foldlM (tpStep products) acc = Except.ok (acc + totalProfitQ products sales) by
    have := hgen 0
    rw [this]
    norm_num
  induction sales with
  | nil =>
      intro acc
      rw [List.foldlM_nil, exceptPure]
      simp [totalProfitQ]
  | cons s rest ih =>
      intro acc
      rw [List.foldlM_cons, tpStep_notBad hnb, exceptBind_ok, ih]
      simp only [totalProfitQ, List.map_cons, List.sum_cons, Except.ok.injEq]
      ring

theorem productStep_ok {products : List Product} {m m' : List (Int × ProdStat)}
    {s : Sale} (h : productStep products m s = Except.ok m') :
    m' = productStepQ products m s := by
  unfold productStep at h
  unfold productStepQ
  dsimp only at h ⊢
  cases hl : lookupProduct products s.product_id with
  | none =>
      simp only [hl] at h ⊢
      cases h
      rfl
  | some p =>
      simp only [hl] at h ⊢
      cases hc : costOf p.cost_price with
      | error e =>
          rw [hc] at h
          simp only [exceptBind_error] at h
          cases h
      | ok c =>
          rw [hc] at h
          simp only [exceptBind_ok] at h
          cases h
          rw [costOf_ok_eq hc]

theorem productStep_notBad {products : List Product} (hnb : NoBadCost products)
    (m : List (Int × ProdStat)) (s : Sale) :
    productStep products m s = Except.ok (productStepQ products m s) := by
  unfold productStep
  unfold productStepQ
  dsimp only
  cases hl : lookupProduct products s.product_id with
  | none => simp [hl]
  | some p =>
      have hp : p ∈ products := lookupProduct_mem hl
      simp only [hl]
      rw [costOf_of_notBad (hnb p hp), exceptBind_ok]

theorem productStats_go {products : List Product} (sales : List Sale) :
    ∀ (m st : List (Int × ProdStat)),
      sales.foldlM (productStep products) m = Except.ok st →
      st = sales.foldl (productStepQ products) m := by
  induction sales with
  | nil =>
      intro m st h
      rw [List.foldlM_nil, exceptPure] at h
      cases h
      rfl
  | cons s rest ih =>
      intro m st h
      rw [List.foldlM_cons] at h
      cases hs : productStep products m s with
      | error e =>
          rw [hs, exceptBind_error] at h
          cases h
      | ok m1 =>
          rw [hs, exceptBind_ok] at h
          have := ih m1 st h
          rw [List.foldl_cons, ← productStep_ok hs]
          exact this

theorem productStats_ok {products : List Product} {sales : List Sale}
    {st : List (Int × ProdStat)}
    (h : productStats products sales = Except.ok st) :
    st = productStatsQ products sales :=
  productStats_go sales [] st h

/-! ## Dict (association list) lemmas -/

theorem dictGet_nil {κ β : Type} [BEq κ] (k : κ) :
    dictGet ([] : List (κ × β)) k = none := rfl

theorem dictGet_cons {κ β : Type} [BEq κ] (kv : κ × β) (m : List (κ × β)) (k : κ) :
    dictGet (kv :: m) k = if kv.1 == k then some kv.2 else dictGet m k := by
  simp only [dictGet, List.find?_cons]
  cases h : (kv.1 == k) <;> simp [h]

theorem dictSet_cons {κ β : Type} [BEq κ] (kv : κ × β) (m : List (κ × β)) (k : κ) (v : β) :
    dictSet (kv :: m) k v = (if kv.1 == k then (k, v) else kv) :: dictSet m k v := rfl

theorem dictGet_set_self {κ β : Type} [BEq κ] [LawfulBEq κ]
    (m : List (κ × β)) (k : κ) (v : β) :
    dictGet (dictSet m k v) k = (dictGet m k).map (fun _ => v) := by
  induction m with
  | nil => rfl
  | cons kv m ih =>
      simp only [dictSet_cons, dictGet_cons]
      by_cases hb : kv.1 = k
      · have hbt : (kv.1 == k) = true := by simp [hb]
        simp [hbt]
      · have hbf : (kv.1 == k) = false := by simp [hb]
        simp [hbf, ih]

theorem dictGet_set_other {κ β : Type} [BEq κ] [LawfulBEq κ]
    (m : List (κ × β)) (k k' : κ) (v : β) (hk : k' ≠ k) :
    dictGet (dictSet m k v) k' = dictGet m k' := by
  induction m with
  | nil => rfl
  | cons kv m ih =>
      simp only [dictSet_cons, dictGet_cons]
      by_cases hb : kv.1 = k
      · have hbt : (kv.1 == k) = true := by simp [hb]
        have h1 : (k == k') = false := by
          simp only [beq_eq_false_iff_ne]
          exact fun hh => hk hh.symm
        have h2 : (kv.1 == k') = false := by rw [hb]; exact h1
        simp [hbt, h1, h2, ih]
      · have hbf : (kv.1 == k) = false := by simp [hb]
        rw [hbf]
        simp [ih]

theorem dictGet_append {κ β : Type} [BEq κ] (m l : List (κ × β)) (k : κ) :
    dictGet (m ++ l) k = (dictGet m k).or (dictGet l k) := by
  simp only [dictGet, List.find?_append]
  cases h : m.find? (fun kv => kv.1 == k) <;> simp [h, Option.or]

theorem keys_dictSet {κ β : Type} [BEq κ] [LawfulBEq κ]
    (m : List (κ × β)) (k : κ) (v : β) :
    (dictSet m k v).map Prod.fst = m.map Prod.fst := by
  induction m with
  | nil => rfl
  | cons kv m ih =>
      rw [dictSet_cons]
      by_cases hb : kv.1 = k
      · subst hb
        simp [ih]
      · have : (kv.1 == k) = false := by simp [hb]
        simp [this, ih]

theorem dictGet_eq_none_iff {κ β : Type} [BEq κ] [LawfulBEq κ]
    (m : List (κ × β)) (k : κ) :
    dictGet m k = none ↔ ∀ kv ∈ m, kv.1 ≠ k := by
  simp [dictGet, List.find?_eq_none]

theorem dictGet_of_mem_nodup {κ β : Type} [BEq κ] [LawfulBEq κ]
    {m : List (κ × β)} {k : κ} {v : β}
    (hnd : (m.map Prod.fst).Nodup) (hmem : (k, v) ∈ m) :
    dictGet m k = some v := by
  induction m with
  | nil => cases hmem
  | cons kv m ih =>
      rw [dictGet_cons]
      rcases List.mem_cons.1 hmem with heq | htl
      · subst heq
        simp
      · have hk : k ∈ m.map Prod.fst := by
          exact List.mem_map.2 ⟨(k, v), htl, rfl⟩
        have hkv : kv.1 ≠ k := by
          intro hcontra
          rw [List.map_cons, List.nodup_cons] at hnd
          exact hnd.1 (hcontra ▸ hk)
        have : (kv.1 == k) = false := by simp [hkv]
        rw [this, if_neg (by simp)]
        exact ih (by rw [List.map_cons, List.nodup_cons] at hnd; exact hnd.2) htl

theorem productStats_notBad {products : List Product} (hnb : NoBadCost products)
    (sales : List Sale) :
    productStats products sales = Except.ok (productStatsQ products sales) := by
  unfold productStats
  unfold productStatsQ
  suffices hgen : ∀ m : List (Int × ProdStat),
      sales.foldlM (productStep products) m = Except.ok (sales.foldl (productStepQ products) m) by
    exact hgen []
  induction sales with
  | nil =>
      intro m
      rw [List.foldlM_nil, List.foldl_nil, exceptPure]
  | cons s rest ih =>
      intro m
      rw [List.foldlM_cons, productStep_notBad hnb, exceptBind_ok, List.foldl_cons, ih]

/-! ## `get_analytics` success bridge -/

theorem getAnalytics_empty (products : List Product) (endDay : Int) (days : Nat) :
    getAnalytics [] products endDay days = Except.ok (emptySummary days) := rfl

theorem getAnalytics_ok {sales : List Sale} {products : List Product}
    {endDay : Int} {days : Nat} {s : AnalyticsSummary}
    (hne : sales ≠ [])
    (h : getAnalytics sales products endDay days = Except.ok s) :
    s = getAnalyticsPure sales products endDay days := by
  unfold getAnalytics at h
  rw [if_neg (by simpa using hne)] at h
  dsimp only at h
  cases htp : totalProfit products sales with
  | error e =>
      rw [htp] at h
      simp only [exceptBind_error] at h
      cases h
  | ok tp =>
      rw [htp] at h
      simp only [exceptBind_ok] at h
      cases hst : productStats products sales with
      | error e =>
          rw [hst] at h
          simp only [exceptBind_error] at h
          cases h
      | ok st =>
          rw [hst] at h
          simp only [exceptBind_ok, Except.ok.injEq] at h
          rw [← h, totalProfit_ok htp, productStats_ok hst]
          rfl

theorem getAnalytics_notBad {sales : List Sale} {products : List Product}
    (hnb : NoBadCost products) (hne : sales ≠ []) (endDay : Int) (days : Nat) :
    getAnalytics sales products endDay days
      = Except.ok (getAnalyticsPure sales products endDay days) := by
  unfold getAnalytics
  rw [if_neg (by simpa using hne)]
  dsimp only
  rw [totalProfit_notBad hnb, exceptBind_ok, productStats_notBad hnb, exceptBind_ok]
  rfl

/-! ## Ranking-loop fold invariants -/

/-- Componentwise sum of two accumulators. -/
def statAdd (a b : ProdStat) : ProdStat :=
  ⟨a.sold + b.sold, a.revenue + b.revenue, a.profit + b.profit⟩

/-- What one sale adds to its product's accumulator. -/
def saleContrib (products : List Product) (s : Sale) : ProdStat :=
  ⟨s.quantity_sold, s.total_price, rankProfitContrib products s.product_id s.quantity_sold⟩

/-- The aggregate the ranking loop is supposed to produce for one product id:
componentwise sums over that product's sales. -/
def aggOf (products : List Product) (pid : Int) (sales : List Sale) : ProdStat :=
  ⟨((sales.filter (fun s => s.product_id == pid)).map (fun s => s.quantity_sold)).sum,
   ((sales.filter (fun s => s.product_id == pid)).map (fun s => s.total_price)).sum,
   ((sales.filter (fun s => s.product_id == pid)).map
      (fun s => rankProfitContrib products s.product_id s.quantity_sold)).sum⟩

theorem statAdd_assoc (a b c : ProdStat) :
    statAdd (statAdd a b) c = statAdd a (statAdd b c) := by
  simp [statAdd]
  refine ⟨by ring, by ring, by ring⟩

theorem statAdd_empty_left (a : ProdStat) : statAdd emptyStat a = a := by
  simp [statAdd, emptyStat]

theorem statAdd_empty_right (a : ProdStat) : statAdd a emptyStat = a := by
  simp [statAdd, emptyStat]

theorem aggOf_nil (products : List Product) (pid : Int) :
    aggOf products pid [] = emptyStat := rfl

theorem aggOf_cons_eq (products : List Product) {pid : Int} {s : Sale}
    (h : s.product_id = pid) (rest : List Sale) :
    aggOf products pid (s :: rest) =
      statAdd (saleContrib products s) (aggOf products pid rest) := by
  have hb : (s.product_id == pid) = true := by simp [h]
  simp [aggOf, statAdd, saleContrib, List.filter_cons, hb]

theorem aggOf_cons_ne (products : List Product) {pid : Int} {s : Sale}
    (h : s.product_id ≠ pid) (rest : List Sale) :
    aggOf products pid (s :: rest) = aggOf products pid rest := by
  have hb : (s.product_id == pid) = false := by simp [h]
  simp [aggOf, List.filter_cons, hb]

theorem getStat_eq_dictGet (m : List (Int × ProdStat)) (k : Int) :
    getStat m k = dictGet m k := rfl

theorem setStat_eq_dictSet (m : List (Int × ProdStat)) (k : Int) (v : ProdStat) :
    setStat m k v = dictSet m k v := rfl

theorem dictGet_ensure_self {β : Type} (m : List (Int × β)) (pid : Int) (dflt : β) :
    dictGet (if (dictGet m pid).isSome then m else m ++ [(pid, dflt)]) pid
      = some ((dictGet m pid).getD dflt) := by
  cases hpres : dictGet m pid with
  | some st0 => simp [hpres]
  | none =>
      simp only [hpres, Option.isSome_none, Bool.false_eq_true, if_false, Option.getD_none]
      rw [dictGet_append, hpres, dictGet_cons]
      simp [Option.or]

theorem dictGet_ensure_other {β : Type} (m : List (Int × β)) (pid k : Int) (dflt : β)
    (h : k ≠ pid) :
    dictGet (if (dictGet m pid).isSome then m else m ++ [(pid, dflt)]) k
      = dictGet m k := by
  cases hpres : dictGet m pid with
  | some st0 => simp [hpres]
  | none =>
      simp only [hpres, Option.isSome_none, Bool.false_eq_true, if_false]
      rw [dictGet_append, dictGet_cons]
      have hb : (pid == k) = false := by
        simp only [beq_eq_false_iff_ne]
        exact fun hh => h hh.symm
      simp only [hb, Bool.false_eq_true, if_false, dictGet_nil]
      cases hg : dictGet m k <;> simp [Option.or]

theorem getStat_stepQ_self (products : List Product) (m : List (Int × ProdStat))
    (s : Sale) :
    getStat (productStepQ products m s) s.product_id
      = some (statAdd ((getStat m s.product_id).getD emptyStat) (saleContrib products s)) := by
  unfold productStepQ
  dsimp only
  simp only [getStat_eq_dictGet, setStat_eq_dictSet]
  cases hl : lookupProduct products s.product_id with
  | none =>
      simp only [hl]
      rw [dictGet_set_self, dictGet_ensure_self]
      simp [statAdd, saleContrib, rankProfitContrib, hl]
  | some p =>
      simp only [hl]
      rw [dictGet_set_self, dictGet_set_self, dictGet_ensure_self]
      simp [statAdd, saleContrib, rankProfitContrib, hl]

theorem getStat_stepQ_other (products : List Product) (m : List (Int × ProdStat))
    (s : Sale) (pid : Int) (h : pid ≠ s.product_id) :
    getStat (productStepQ products m s) pid = getStat m pid := by
  unfold productStepQ
  dsimp only
  simp only [getStat_eq_dictGet, setStat_eq_dictSet]
  cases hl : lookupProduct products s.product_id with
  | none =>
      simp only [hl]
      rw [dictGet_set_other _ _ _ _ h, dictGet_ensure_other _ _ _ _ h]
  | some p =>
      simp only [hl]
      rw [dictGet_set_other _ _ _ _ h, dictGet_set_other _ _ _ _ h,
        dictGet_ensure_other _ _ _ _ h]

theorem getStat_statsQ_go (products : List Product) (sales : List Sale) :
    ∀ (m : List (Int × ProdStat)) (pid : Int),
      (getStat (sales.foldl (productStepQ products) m) pid).getD emptyStat
        = statAdd ((getStat m pid).getD emptyStat) (aggOf products pid sales) := by
  induction sales with
  | nil =>
      intro m pid
      rw [List.foldl_nil, aggOf_nil, statAdd_empty_right]
  | cons s rest ih =>
      intro m pid
      rw [List.foldl_cons]
      by_cases hpid : s.product_id = pid
      · subst hpid
        rw [ih, getStat_stepQ_self]
        simp only [Option.getD_some]
        rw [aggOf_cons_eq products rfl, ← statAdd_assoc]
      · rw [ih, getStat_stepQ_other products m s pid (fun hh => hpid hh.symm),
          aggOf_cons_ne products hpid]

theorem getStat_statsQ (products : List Product) (sales : List Sale) (pid : Int) :
    (getStat (productStatsQ products sales) pid).getD emptyStat
      = aggOf products pid sales := by
  unfold productStatsQ
  rw [getStat_statsQ_go]
  rw [show getStat [] pid = none from rfl]
  simp [statAdd_empty_left]

theorem keys_stepQ (products : List Product) (m : List (Int × ProdStat)) (s : Sale) :
    (productStepQ products m s).map Prod.fst
      = if (getStat m s.product_id).isSome then m.map Prod.fst
        else m.map Prod.fst ++ [s.product_id] := by
  unfold productStepQ
  dsimp only
  simp only [getStat_eq_dictGet, setStat_eq_dictSet]
  cases hl : lookupProduct products s.product_id with
  | none =>
      simp only [hl]
      rw [keys_dictSet]
      by_cases hpres : (dictGet m s.product_id).isSome <;> simp [hpres]
  | some p =>
      simp only [hl]
      rw [keys_dictSet, keys_dictSet]
      by_cases hpres : (dictGet m s.product_id).isSome <;> simp [hpres]

theorem keysNodup_statsQ (products : List Product) (sales : List Sale) :
    ((productStatsQ products sales).map Prod.fst).Nodup := by
  unfold productStatsQ
  suffices hgen : ∀ (m : List (Int × ProdStat)), (m.map Prod.fst).Nodup →
      ((sales.foldl (productStepQ products) m).map Prod.fst).Nodup by
    exact hgen [] (by simp)
  induction sales with
  | nil => intro m hm; simpa using hm
  | cons s rest ih =>
      intro m hm
      rw [List.foldl_cons]
      apply ih
      rw [keys_stepQ]
      cases hpres : getStat m s.product_id with
      | some st0 => simpa [hpres] using hm
      | none =>
          simp only [hpres, Option.isSome_none, Bool.false_eq_true, if_false]
          have hnotin : s.product_id ∉ m.map Prod.fst := by
            intro hmem
            rcases List.mem_map.1 hmem with ⟨kv, hkv, hfst⟩
            have := (dictGet_eq_none_iff m s.product_id).1 hpres kv hkv
            exact this hfst
          rw [List.nodup_append]
          exact ⟨hm, List.nodup_singleton _, by
            intro a ha hb
            rw [List.mem_singleton] at hb
            exact hnotin (hb ▸ ha)⟩

theorem mem_statsQ_eq {products : List Product} {sales : List Sale}
    {pid : Int} {st : ProdStat}
    (h : (pid, st) ∈ productStatsQ products sales) :
    st = aggOf products pid sales := by
  have hget : dictGet (productStatsQ products sales) pid = some st :=
    dictGet_of_mem_nodup (keysNodup_statsQ products sales) h
  have := getStat_statsQ products sales pid
  rw [getStat_eq_dictGet, hget] at this
  simpa using this

/-! ## Sorting and `top_products` membership -/

theorem mem_insertDesc {x y : Int × ProdStat} {l : List (Int × ProdStat)} :
    y ∈ insertDesc x l ↔ y = x ∨ y ∈ l := by
  induction l with
  | nil => simp [insertDesc]
  | cons z zs ih =>
      unfold insertDesc
      split <;> simp [List.mem_cons, ih] <;> tauto

theorem mem_sortByRevenueDesc {y : Int × ProdStat} {l : List (Int × ProdStat)} :
    y ∈ sortByRevenueDesc l ↔ y ∈ l := by
  unfold sortByRevenueDesc
  induction l with
  | nil => simp
  | cons z zs ih =>
      rw [List.foldr_cons, mem_insertDesc]
      simp [ih]

theorem mem_topProductsOf {products : List Product} {stats : List (Int × ProdStat)}
    {tp : TopProduct} (h : tp ∈ topProductsOf products stats) :
    ∃ e, e ∈ stats ∧ tp = mkTopProduct products e := by
  unfold topProductsOf at h
  rcases List.mem_map.1 h with ⟨e, he, hmk⟩
  have h1 : e ∈ sortByRevenueDesc stats := List.take_subset 10 _ he
  exact ⟨e, mem_sortByRevenueDesc.1 h1, hmk.symm⟩

/-! ## Hourly histogram characterization -/

/-- Number of sales the hourly loop files under hour `h`. -/
def hourCount (sales : List Sale) (h : Nat) : Nat :=
  (sales.filter (fun s => hourlyParse s.timestamp == some h)).length

/-- Revenue the hourly loop files under hour `h`. -/
def hourRevenue (sales : List Sale) (h : Nat) : ℚ :=
  ((sales.filter (fun s => hourlyParse s.timestamp == some h)).map
    (fun s => s.total_price)).sum

theorem hourlyStep_range (b : Nat → HourData) (s : Sale) :
    hourlyStep ((List.range 24).map (fun h => (h, b h))) s
      = (List.range 24).map (fun h =>
          (h, if hourlyParse s.timestamp == some h then
                ⟨(b h).count + 1, (b h).revenue + s.total_price⟩ else b h)) := by
  unfold hourlyStep
  cases hp : hourlyParse s.timestamp with
  | none =>
      apply List.map_congr_left
      intro h hmem
      simp
  | some hh =>
      dsimp only
      rw [List.map_map]
      apply List.map_congr_left
      intro h hmem
      by_cases hcase : h = hh
      · subst hcase
        simp
      · have h1 : (h == hh) = false := by simp [hcase]
        have h2 : (some hh == some h) = false := by
          simp only [beq_eq_false_iff_ne]
          intro hc
          exact hcase (Option.some.inj hc).symm
        simp [Function.comp, h1, h2]

theorem hourlyFold_go (sales : List Sale) :
    ∀ (b : Nat → HourData),
      sales.foldl hourlyStep ((List.range 24).map (fun h => (h, b h)))
        = (List.range 24).map (fun h =>
            (h, ⟨(b h).count + hourCount sales h, (b h).revenue + hourRevenue sales h⟩)) := by
  induction sales with
  | nil =>
      intro b
      rw [List.foldl_nil]
      apply List.map_congr_left
      intro h hmem
      simp [hourCount, hourRevenue]
  | cons s rest ih =>
      intro b
      rw [List.foldl_cons, hourlyStep_range, ih]
      apply List.map_congr_left
      intro h hmem
      by_cases hc : hourlyParse s.timestamp = some h
      · have hb : (hourlyParse s.timestamp == some h) = true := by simp [hc]
        simp only [hb, if_true]
        have hcount : hourCount (s :: rest) h = 1 + hourCount rest h := by
          simp [hourCount, List.filter_cons, hb]
          omega
        have hrev : hourRevenue (s :: rest) h = s.total_price + hourRevenue rest h := by
          simp [hourRevenue, List.filter_cons, hb]
        rw [hcount, hrev]
        refine congrArg _ ?_
        refine congrArg₂ _ ?_ ?_
        · omega
        · ring
      · have hb : (hourlyParse s.timestamp == some h) = false := by simp [hc]
        simp only [hb, Bool.false_eq_true, if_false]
        have hcount : hourCount (s :: rest) h = hourCount rest h := by
          simp [hourCount, List.filter_cons, hb]
        have hrev : hourRevenue (s :: rest) h = hourRevenue rest h := by
          simp [hourRevenue, List.filter_cons, hb]
        rw [hcount, hrev]

theorem hourlyData_eq (sales : List Sale) :
    hourlyData sales
      = (List.range 24).map (fun h => (h, ⟨hourCount sales h, hourRevenue sales h⟩)) := by
  unfold hourlyData
  have := hourlyFold_go sales (fun _ => ⟨0, 0⟩)
  rw [this]
  apply List.map_congr_left
  intro h hmem
  simp

theorem hourlyBreakdown_eq (sales : List Sale) :
    hourlyBreakdownOf (hourlyData sales)
      = (List.range 24).map (fun h =>
          ⟨h, hourCount sales h, pyRound 2 (hourRevenue sales h)⟩) := by
  rw [hourlyData_eq]
  unfold hourlyBreakdownOf
  rw [List.map_map]
  apply List.map_congr_left
  intro h hmem
  rfl

/-! ## Sales-trends shape lemmas -/

theorem salesTrends_length (m : List (Int × DayData)) (a b : Int) :
    (salesTrendsOf m a b).length = (b + 1 - a).toNat := by
  unfold salesTrendsOf
  rw [List.length_map, List.length_range]

theorem salesTrends_getElem_date (m : List (Int × DayData)) (a b : Int) (i : Nat)
    (hi : i < (salesTrendsOf m a b).length) :
    (salesTrendsOf m a b)[i].date = a + (i : Int) := by
  unfold salesTrendsOf at hi ⊢
  rw [List.getElem_map, List.getElem_range]
  cases hg : getDay m (a + ((i : Int))) <;> simp [hg]

theorem mem_salesTrends_bounds {m : List (Int × DayData)} {a b : Int}
    {t : SalesTrend} (h : t ∈ salesTrendsOf m a b) :
    a ≤ t.date ∧ t.date ≤ b := by
  unfold salesTrendsOf at h
  rcases List.mem_map.1 h with ⟨i, hi, ht⟩
  have hmem : i < (b + 1 - a).toNat := List.mem_range.1 hi
  have hlt : (i : Int) < b + 1 - a := by omega
  have hdate : t.date = a + (i : Int) := by
    rw [← ht]
    cases hg : getDay m (a + ((i : Int))) <;> simp [hg]
  constructor
  · rw [hdate]; omega
  · rw [hdate]; omega

/-! ## Daily-map lemmas -/

theorem getDay_eq_dictGet (m : List (Int × DayData)) (k : Int) :
    getDay m k = dictGet m k := rfl

theorem setDay_eq_dictSet (m : List (Int × DayData)) (k : Int) (v : DayData) :
    setDay m k v = dictSet m k v := rfl

theorem dictGet_isSome_set {β : Type} (m : List (Int × β)) (k k' : Int) (v : β)
    (h : (dictGet m k').isSome) : (dictGet (dictSet m k v) k').isSome := by
  by_cases hc : k' = k
  · subst hc
    rw [dictGet_set_self]
    cases hg : dictGet m k'
    · rw [hg] at h; cases h
    · simp
  · rw [dictGet_set_other _ _ _ _ hc]
    exact h

theorem dictGet_isSome_append {β : Type} (m l : List (Int × β)) (k : Int)
    (h : (dictGet m k).isSome) : (dictGet (m ++ l) k).isSome := by
  rw [dictGet_append]
  cases hg : dictGet m k
  · rw [hg] at h; cases h
  · simp [Option.or]

theorem dailyStep_noParse {products : List Product} {m : List (Int × DayData)}
    {s : Sale} (h : dailyParse s.timestamp = none) :
    dailyStep products m s = m := by
  unfold dailyStep
  rw [h]

theorem hourlyStep_noParse {m : List (Nat × HourData)} {s : Sale}
    (h : hourlyParse s.timestamp = none) :
    hourlyStep m s = m := by
  unfold hourlyStep
  rw [h]

theorem getDay_isSome_dailyStep (products : List Product) (m : List (Int × DayData))
    (s : Sale) (k : Int) (h : (getDay m k).isSome) :
    (getDay (dailyStep products m s) k).isSome := by
  unfold dailyStep
  cases hp : dailyParse s.timestamp with
  | none => exact h
  | some day =>
      dsimp only
      simp only [getDay_eq_dictGet, setDay_eq_dictSet] at h ⊢
      have hm1 : (dictGet
          (if (dictGet m day).isSome then m else m ++ [(day, emptyDay)]) k).isSome := by
        by_cases hpres : (dictGet m day).isSome
        · simpa [hpres] using h
        · simp only [hpres, Bool.false_eq_true, if_false]
          exact dictGet_isSome_append _ _ _ h
      cases hl : lookupProduct products s.product_id with
      | none =>
          dsimp only
          exact dictGet_isSome_set _ _ _ _ hm1
      | some p =>
          dsimp only
          cases hc : costOf p.cost_price with
          | error e =>
              dsimp only
              exact dictGet_isSome_set _ _ _ _ hm1
          | ok cost =>
              dsimp only
              exact dictGet_isSome_set _ _ _ _ (dictGet_isSome_set _ _ _ _ hm1)

theorem dailyStep_own_day (products : List Product) (m : List (Int × DayData))
    (s : Sale) (day : Int) (hp : dailyParse s.timestamp = some day) :
    (getDay (dailyStep products m s) day).isSome := by
  unfold dailyStep
  rw [hp]
  dsimp only
  simp only [getDay_eq_dictGet, setDay_eq_dictSet]
  have hm1 : (dictGet
      (if (dictGet m day).isSome then m else m ++ [(day, emptyDay)]) day).isSome := by
    rw [dictGet_ensure_self]
    simp
  cases hl : lookupProduct products s.product_id with
  | none =>
      dsimp only
      exact dictGet_isSome_set _ _ _ _ hm1
  | some p =>
      dsimp only
      cases hc : costOf p.cost_price with
      | error e =>
          dsimp only
          exact dictGet_isSome_set _ _ _ _ hm1
      | ok cost =>
          dsimp only
          exact dictGet_isSome_set _ _ _ _ (dictGet_isSome_set _ _ _ _ hm1)

theorem getDay_isSome_foldl (products : List Product) (sales : List Sale) :
    ∀ (m : List (Int × DayData)) (k : Int), (getDay m k).isSome →
      (getDay (sales.foldl (dailyStep products) m) k).isSome := by
  induction sales with
  | nil => intro m k h; simpa using h
  | cons s rest ih =>
      intro m k h
      rw [List.foldl_cons]
      exact ih _ _ (getDay_isSome_dailyStep products m s k h)

/-! ## Miscellaneous arithmetic lemmas -/

theorem pyRound_zero (n : Nat) : pyRound n 0 = 0 := by
  simp [pyRound, roundHalfEven, ratFloor]

theorem totalRevenueQ_cons (s : Sale) (sales : List Sale) :
    totalRevenueQ (s :: sales) = s.total_price + totalRevenueQ sales := by
  simp [totalRevenueQ]

/-! ## Spec-side definitions (for refinement comparisons) -/

/-- §4.4 item 4, written from the spec text: split the ordered daily-trend
sequence at index `len // 2`, compare the two halves' mean revenues; `0` if
the first half's mean is not `> 0` or there are fewer than 2 days. -/
def specRevenueTrend (trends : List SalesTrend) : ℚ :=
  if trends.length < 2 then 0
  else
    let firstHalf := trends.take (trends.length / 2)
    let secondHalf := trends.drop (trends.length / 2)
    let firstMean := (firstHalf.map (fun t => t.revenue)).sum / (firstHalf.length : ℚ)
    let secondMean := (secondHalf.map (fun t => t.revenue)).sum / (secondHalf.length : ℚ)
    if firstMean > 0 then (secondMean - firstMean) / firstMean * 100 else 0

theorem revenueTrend_eq_spec (trends : List SalesTrend) :
    revenueTrend trends = specRevenueTrend trends := by
  unfold revenueTrend specRevenueTrend
  by_cases hlen : trends.length ≥ 2
  · have hlt : ¬ trends.length < 2 := by omega
    rw [if_pos hlen, if_neg hlt]
    dsimp only
    have h1 : (trends.take (trends.length / 2)).length > 0 := by
      rw [List.length_take]
      omega
    have h2 : (trends.drop (trends.length / 2)).length > 0 := by
      rw [List.length_drop]
      omega
    rw [if_pos h1, if_pos h2]
  · have hlt : trends.length < 2 := by omega
    rw [if_neg hlen, if_pos hlt]

/-- §4.6 as the spec words it: the hour is taken from the UTC-normalized
instant (naive assumed UTC, aware converted to UTC) — written here for
comparison with the code's `hourlyParse`. -/
def specUtcHour : Timestamp → Option Int
  | Timestamp.empty => none
  | Timestamp.isoT d h m off => some ((utcMinutes d h m off).fmod 1440 / 60)
  | Timestamp.dateOnly _ => some 0
  | Timestamp.general d h m off => some ((utcMinutes d h m off).fmod 1440 / 60)
  | Timestamp.unparseable => none

/-! # Claim theorems -/

/-- C1 counterexample: one product with current price `10` and unit cost `4`,
one sale of quantity `1` recorded at gross amount `5`.  The claim demands
`profit_total = 5 − 4·1 = 1`; `get_analytics` reports `(10 − 4)·1 = 6`:
the ranking loop recomputes profit from the product's current price
(`analytics.py` line 231), not from the sale's recorded revenue. -/
theorem C1_counterexample :
    (getAnalytics [⟨1, 1, 5, Timestamp.isoT 0 12 0 none⟩]
        [⟨1, "P", none, 10, CostVal.num 4⟩] 0 0).toOption.map
      (fun s => s.top_products.map (fun t => t.total_profit)) = some [6]
    ∧ (6 : ℚ) ≠ 5 - 4 * 1 := by
  constructor
  · with_unfolding_all decide
  · with_unfolding_all decide

/-- C1 (amended): the `profit_total` reported for a product in `top_products`
equals the 2-decimal rounding of the sum, over that product's sale events, of
`(current product price − unit_cost) × quantity` — recomputed from the
product's CURRENT price, not from the sale's recorded gross amount. -/
theorem C1_top_products_profit (sales : List Sale) (products : List Product)
    (endDay : Int) (days : Nat) (s : AnalyticsSummary)
    (hok : getAnalytics sales products endDay days = Except.ok s) :
    ∀ tp ∈ s.top_products,
      tp.total_profit = pyRound 2
        (((sales.filter (fun x => x.product_id == tp.product_id)).map
            (fun x => rankProfitContrib products x.product_id x.quantity_sold)).sum) := by
  intro tp htp
  by_cases hne : sales = []
  · subst hne
    rw [getAnalytics_empty] at hok
    cases hok
    simp [emptySummary] at htp
  · rw [getAnalytics_ok hne hok] at htp
    have htp2 : tp ∈ topProductsOf products (productStatsQ products sales) := htp
    rcases mem_topProductsOf htp2 with ⟨e, he, hmk⟩
    obtain ⟨pid, st⟩ := e
    have hst := mem_statsQ_eq he
    subst hmk
    have hpid : (mkTopProduct products (pid, st)).product_id = pid := by
      unfold mkTopProduct
      cases hl : lookupProduct products pid <;> simp [hl]
    have hprof : (mkTopProduct products (pid, st)).total_profit
        = pyRound 2 st.profit := by
      unfold mkTopProduct
      cases hl : lookupProduct products pid <;> simp [hl]
    rw [hpid, hprof, hst]
    rfl

def wSalesC1 : List Sale := [⟨1, 1, 5, Timestamp.isoT 0 12 0 none⟩]

def wProductsC1 : List Product := [⟨1, "P", none, 10, CostVal.num 4⟩]

def wSummaryC1 : AnalyticsSummary :=
  ((getAnalytics wSalesC1 wProductsC1 0 0).toOption).getD (emptySummary 0)

def wTopC1 : TopProduct := ⟨1, "P", none, 1, 5, 6⟩

/-- C1 witness: the amended profit law, checked on the counterexample input
(profit `6` from current price `10` − cost `4`, one unit). -/
theorem C1_top_products_profit_witness :
    wTopC1.total_profit = pyRound 2
      (((wSalesC1.filter (fun x => x.product_id == wTopC1.product_id)).map
          (fun x => rankProfitContrib wProductsC1 x.product_id x.quantity_sold)).sum) :=
  C1_top_products_profit wSalesC1 wProductsC1 0 0 wSummaryC1 rfl wTopC1 (by
    have h : wSummaryC1.top_products = [wTopC1] := by with_unfolding_all decide
    rw [h]
    exact List.mem_singleton_self _)

/-- C2 counterexample: a single sale with gross amount `5` whose `product_id`
is absent from the product batch.  The claim demands `total_profit = 5`
(profit = full gross); `get_analytics` reports `0`: the loop at
`analytics.py` lines 104-111 skips sales whose product lookup fails. -/
theorem C2_counterexample :
    (getAnalytics [⟨1, 1, 5, Timestamp.isoT 0 12 0 none⟩] [] 0 0).toOption.map
      (fun s => s.total_profit) = some 0
    ∧ (0 : ℚ) ≠ 5 := by
  constructor
  · with_unfolding_all decide
  · with_unfolding_all decide

/-- C2 (amended): `total_profit` is the 2-decimal rounding of the sum over all
sale events of `gross_amount − unit_cost(product_id) × quantity` for sales
whose product is in the catalog; a sale whose `product_id` is absent from the
cost mapping contributes `0` (not its gross amount). -/
theorem C2_total_profit (sales : List Sale) (products : List Product)
    (endDay : Int) (days : Nat) (s : AnalyticsSummary)
    (hok : getAnalytics sales products endDay days = Except.ok s) :
    s.total_profit = pyRound 2 ((sales.map (saleProfit products)).sum) := by
  by_cases hne : sales = []
  · subst hne
    rw [getAnalytics_empty] at hok
    cases hok
    rw [show ((([] : List Sale)).map (saleProfit products)).sum = 0 from rfl, pyRound_zero]
    rfl
  · rw [getAnalytics_ok hne hok]
    rfl

def wSalesC2 : List Sale := [⟨1, 1, 5, Timestamp.isoT 0 12 0 none⟩]

def wProductsC2 : List Product := [⟨1, "P", none, 10, CostVal.num 4⟩]

def wSummaryC2 : AnalyticsSummary :=
  ((getAnalytics wSalesC2 wProductsC2 0 0).toOption).getD (emptySummary 0)

/-- C2 witness: the amended profit law on a one-sale batch with a known
product (profit `5 − 4·1 = 1`). -/
theorem C2_total_profit_witness :
    wSummaryC2.total_profit = pyRound 2 ((wSalesC2.map (saleProfit wProductsC2)).sum) :=
  C2_total_profit wSalesC2 wProductsC2 0 0 wSummaryC2 rfl

/-- C3 counterexample: on an EMPTY sales batch with a 7-day window, the early
return at `analytics.py` lines 90-98 yields the pydantic defaults, whose
`sales_trends` is the EMPTY list — not one zero-valued entry per calendar day
(`7 + 1 = 8` entries) as the claim demands. -/
theorem C3_counterexample :
    getAnalytics [] [] 0 7 = Except.ok (emptySummary 7)
    ∧ (emptySummary 7).sales_trends.length = 0
    ∧ (0 : Nat) ≠ 7 + 1 :=
  ⟨rfl, rfl, by decide⟩

/-- C3 (amended): for every NONEMPTY sales batch, `sales_trends` contains
exactly one entry for each UTC calendar day from `start_date` to `end_date`
inclusive (`days + 1` entries), ordered ascending by date with no gaps (the
`i`-th entry's date is `start + i`); on an EMPTY batch the early return yields
an empty `sales_trends` instead. -/
theorem C3_sales_trends_days (sales : List Sale) (products : List Product)
    (endDay : Int) (days : Nat) (s : AnalyticsSummary)
    (hne : sales ≠ [])
    (hok : getAnalytics sales products endDay days = Except.ok s) :
    s.sales_trends.length = days + 1
    ∧ ∀ (i : Nat) (hi : i < s.sales_trends.length),
        (s.sales_trends.get ⟨i, hi⟩).date = endDay - (days : Int) + (i : Int) := by
  rw [getAnalytics_ok hne hok]
  have hlist : (getAnalyticsPure sales products endDay days).sales_trends
      = salesTrendsOf (dailyData products sales) (endDay - (days : Int)) endDay := rfl
  rw [hlist]
  constructor
  · rw [salesTrends_length]
    omega
  · intro i hi
    rw [List.get_eq_getElem, salesTrends_getElem_date]

def wSalesC3 : List Sale := [⟨1, 1, 5, Timestamp.isoT 0 12 0 none⟩]

def wSummaryC3 : AnalyticsSummary :=
  ((getAnalytics wSalesC3 [] 0 2).toOption).getD (emptySummary 0)

/-- C3 witness: one sale, 2-day lookback ending at day 0: three trend entries,
the middle one dated `-1`. -/
theorem C3_sales_trends_days_witness :
    wSummaryC3.sales_trends.length = 2 + 1
    ∧ (wSummaryC3.sales_trends.get ⟨1, by with_unfolding_all decide⟩).date
        = 0 - (2 : Int) + 1 := by
  have h := C3_sales_trends_days wSalesC3 [] 0 2 wSummaryC3
    (by with_unfolding_all decide) rfl
  exact ⟨h.1, h.2 1 (by with_unfolding_all decide)⟩

/-- C4 counterexample: on an EMPTY sales batch the early return yields the
pydantic default `hourly_breakdown = []` — 0 entries, not 24. -/
theorem C4_counterexample :
    getAnalytics [] [] 0 7 = Except.ok (emptySummary 7)
    ∧ (emptySummary 7).hourly_breakdown.length = 0
    ∧ (0 : Nat) ≠ 24 :=
  ⟨rfl, rfl, by decide⟩

/-- C4 (amended): for every NONEMPTY sales batch, `hourly_breakdown` has
exactly 24 entries whose `hour` fields are `0..23` in ascending order (the
`i`-th entry's hour is `i`); on an EMPTY batch the early return yields an
empty `hourly_breakdown` instead. -/
theorem C4_hourly_24 (sales : List Sale) (products : List Product)
    (endDay : Int) (days : Nat) (s : AnalyticsSummary)
    (hne : sales ≠ [])
    (hok : getAnalytics sales products endDay days = Except.ok s) :
    s.hourly_breakdown.length = 24
    ∧ ∀ (i : Nat) (hi : i < s.hourly_breakdown.length),
        (s.hourly_breakdown.get ⟨i, hi⟩).hour = i := by
  rw [getAnalytics_ok hne hok]
  have hlist : (getAnalyticsPure sales products endDay days).hourly_breakdown
      = hourlyBreakdownOf (hourlyData sales) := rfl
  rw [hlist, hourlyBreakdown_eq]
  constructor
  · rw [List.length_map, List.length_range]
  · intro i hi
    rw [List.get_eq_getElem, List.getElem_map, List.getElem_range]

def wSalesC4 : List Sale := [⟨1, 1, 5, Timestamp.isoT 0 12 0 none⟩]

def wSummaryC4 : AnalyticsSummary :=
  ((getAnalytics wSalesC4 [] 0 0).toOption).getD (emptySummary 0)

/-- C4 witness: one sale: 24 hourly entries, the 6th has hour 5. -/
theorem C4_hourly_24_witness :
    wSummaryC4.hourly_breakdown.length = 24
    ∧ (wSummaryC4.hourly_breakdown.get ⟨5, by with_unfolding_all decide⟩).hour = 5 := by
  have h := C4_hourly_24 wSalesC4 [] 0 0 wSummaryC4 (by with_unfolding_all decide) rfl
  exact ⟨h.1, h.2 5 (by with_unfolding_all decide)⟩

/-- C5 counterexample: a `'T'` timestamp with wall-clock hour 23 and offset
`+05:00` (+300 min) denotes UTC hour 18, but the hourly loop takes `dt.hour`
without `astimezone` (`analytics.py` line 261), so the sale lands in bucket
23, not the UTC bucket 18. -/
theorem C5_counterexample :
    hourlyParse (Timestamp.isoT 0 23 0 (some 300)) = some 23
    ∧ specUtcHour (Timestamp.isoT 0 23 0 (some 300)) = some 18
    ∧ (getAnalytics [⟨1, 1, 7, Timestamp.isoT 0 23 0 (some 300)⟩] [] 0 0).toOption.map
        (fun s => s.hourly_breakdown.map (fun hb => hb.sales_count))
      = some [0, 0, 0, 0, 0, 0, 0, 0, 0, 0, 0, 0, 0, 0, 0, 0, 0, 0, 0, 0, 0, 0, 0, 1]
    ∧ (23 : Nat) ≠ 18 :=
  ⟨rfl, by with_unfolding_all decide, by with_unfolding_all decide, by decide⟩

/-- C5 (amended): each hourly bucket counts exactly the sales whose parsed
hour under the hourly loop's parser equals that bucket's hour — the LITERAL
wall-clock hour for `'T'` strings (no conversion of timezone-aware values to
UTC), hour 0 for date-only strings — and sales whose timestamps that parser
rejects are silently excluded. -/
theorem C5_hourly_bucket (sales : List Sale) (products : List Product)
    (endDay : Int) (days : Nat) (s : AnalyticsSummary)
    (hne : sales ≠ [])
    (hok : getAnalytics sales products endDay days = Except.ok s) :
    (∀ (i : Nat) (hi : i < s.hourly_breakdown.length),
      (s.hourly_breakdown.get ⟨i, hi⟩).sales_count
          = hourCount sales (s.hourly_breakdown.get ⟨i, hi⟩).hour
      ∧ (s.hourly_breakdown.get ⟨i, hi⟩).revenue
          = pyRound 2 (hourRevenue sales (s.hourly_breakdown.get ⟨i, hi⟩).hour))
    ∧ ∀ (d : Int) (hh mi : Nat) (off : Option Int),
        hourlyParse (Timestamp.isoT d hh mi off) = some hh := by
  rw [getAnalytics_ok hne hok]
  constructor
  · have hlist : (getAnalyticsPure sales products endDay days).hourly_breakdown
        = hourlyBreakdownOf (hourlyData sales) := rfl
    rw [hlist, hourlyBreakdown_eq]
    intro i hi
    rw [List.get_eq_getElem, List.getElem_map, List.getElem_range]
    exact ⟨rfl, rfl⟩
  · intro d hh mi off
    rfl

def wSalesC5 : List Sale := [⟨1, 1, 7, Timestamp.isoT 0 23 0 (some 300)⟩]

def wSummaryC5 : AnalyticsSummary :=
  ((getAnalytics wSalesC5 [] 0 0).toOption).getD (emptySummary 0)

/-- C5 witness: bucket 23 of the counterexample input counts its one sale. -/
theorem C5_hourly_bucket_witness :
    (wSummaryC5.hourly_breakdown.get ⟨23, by with_unfolding_all decide⟩).sales_count
      = hourCount wSalesC5
          (wSummaryC5.hourly_breakdown.get ⟨23, by with_unfolding_all decide⟩).hour := by
  have h := C5_hourly_bucket wSalesC5 [] 0 0 wSummaryC5 (by with_unfolding_all decide) rfl
  exact (h.1 23 (by with_unfolding_all decide)).1

/-- The 8-day trend scenario of §8: daily revenues
`[100, 100, 100, 100, 1000, 1000, 1000, 1000]`. -/
def scenarioTrendSales : List Sale :=
  [⟨1, 1, 100, Timestamp.isoT 0 12 0 none⟩, ⟨1, 1, 100, Timestamp.isoT 1 12 0 none⟩,
   ⟨1, 1, 100, Timestamp.isoT 2 12 0 none⟩, ⟨1, 1, 100, Timestamp.isoT 3 12 0 none⟩,
   ⟨1, 1, 1000, Timestamp.isoT 4 12 0 none⟩, ⟨1, 1, 1000, Timestamp.isoT 5 12 0 none⟩,
   ⟨1, 1, 1000, Timestamp.isoT 6 12 0 none⟩, ⟨1, 1, 1000, Timestamp.isoT 7 12 0 none⟩]

set_option maxRecDepth 8000 in
/-- C6: `revenue_trend` is the 1-decimal rounding of the spec's formula —
split the zero-filled trend sequence at `len // 2`, compare half means,
`0` if the first mean is not `> 0` or fewer than 2 entries — and the 8-day
scenario `[100 ×4, 1000 ×4]` yields `revenue_trend = 900.0`. -/
theorem C6_revenue_trend (sales : List Sale) (products : List Product)
    (endDay : Int) (days : Nat) (s : AnalyticsSummary)
    (hne : sales ≠ [])
    (hok : getAnalytics sales products endDay days = Except.ok s) :
    s.revenue_trend = pyRound 1 (specRevenueTrend s.sales_trends)
    ∧ (getAnalytics scenarioTrendSales [] 7 7).toOption.map (fun r => r.revenue_trend)
        = some 900 := by
  constructor
  · rw [getAnalytics_ok hne hok]
    have hlist : (getAnalyticsPure sales products endDay days).revenue_trend
        = pyRound 1 (revenueTrend (salesTrendsOf (dailyData products sales)
            (endDay - (days : Int)) endDay)) := rfl
    rw [hlist, revenueTrend_eq_spec]
    rfl
  · with_unfolding_all decide

def wSummaryC6 : AnalyticsSummary :=
  ((getAnalytics scenarioTrendSales [] 7 7).toOption).getD (emptySummary 0)

set_option maxRecDepth 8000 in
/-- C6 witness: the trend law instantiated on the 8-day scenario itself. -/
theorem C6_revenue_trend_witness :
    wSummaryC6.revenue_trend = pyRound 1 (specRevenueTrend wSummaryC6.sales_trends) :=
  (C6_revenue_trend scenarioTrendSales [] 7 7 wSummaryC6
    (by with_unfolding_all decide) rfl).1

/-- C7 counterexample: a product whose `cost_price` is a non-numeric string.
`float(...)` raises `ValueError` in the un-guarded total-profit loop
(`analytics.py` lines 104-111 have no `try`), and `get_analytics` propagates
the error to its caller instead of treating the cost as `0`. -/
theorem C7_counterexample :
    getAnalytics [⟨1, 1, 5, Timestamp.isoT 0 12 0 none⟩]
        [⟨1, "B", none, 10, CostVal.nonNumeric⟩] 0 0
      = Except.error "ValueError: could not convert string to float" := by
  with_unfolding_all rfl

/-- C7 (amended): a missing or null cost value resolves to unit cost `0`, and
the engine returns normally whenever no product's cost is non-numeric; a
NON-NUMERIC cost value, however, raises an error out of the engine. -/
theorem C7_cost_default :
    costOf CostVal.missing = Except.ok 0
    ∧ costOf CostVal.null = Except.ok 0
    ∧ ∀ (sales : List Sale) (products : List Product) (endDay : Int) (days : Nat),
        NoBadCost products →
        ∃ s, getAnalytics sales products endDay days = Except.ok s := by
  refine ⟨rfl, rfl, ?_⟩
  intro sales products endDay days hnb
  by_cases hne : sales = []
  · subst hne
    exact ⟨emptySummary days, rfl⟩
  · exact ⟨getAnalyticsPure sales products endDay days,
      getAnalytics_notBad hnb hne endDay days⟩

def wSalesC7 : List Sale := [⟨1, 1, 5, Timestamp.isoT 0 12 0 none⟩]

def wProductsC7 : List Product := [⟨1, "P", none, 10, CostVal.num 4⟩]

/-- C7 witness: the defaulting law plus a normal return on a batch whose only
product has a numeric cost. -/
theorem C7_cost_default_witness :
    costOf CostVal.missing = Except.ok 0
    ∧ ∃ s, getAnalytics wSalesC7 wProductsC7 0 0 = Except.ok s :=
  ⟨C7_cost_default.1, C7_cost_default.2.2 wSalesC7 wProductsC7 0 0 (by
    intro p hp
    simp only [wProductsC7, List.mem_singleton] at hp
    subst hp
    with_unfolding_all decide)⟩

/-- C8: a sale whose timestamp no parser accepts leaves the daily and hourly
dicts exactly as they would be without it, yet is still counted in
`total_revenue`, `total_sales`, `total_profit` and in its product's ranking
aggregate. -/
theorem C8_unparseable (products : List Product) (pre post : List Sale) (u : Sale)
    (hu : u.timestamp = Timestamp.unparseable) :
    dailyData products (pre ++ u :: post) = dailyData products (pre ++ post)
    ∧ hourlyData (pre ++ u :: post) = hourlyData (pre ++ post)
    ∧ aggOf products u.product_id (pre ++ u :: post)
        = statAdd (aggOf products u.product_id (pre ++ post)) (saleContrib products u)
    ∧ ∀ (endDay : Int) (days : Nat) (s : AnalyticsSummary),
        getAnalytics (pre ++ u :: post) products endDay days = Except.ok s →
        s.total_revenue = pyRound 2 (totalRevenueQ (pre ++ post) + u.total_price)
        ∧ s.total_sales = (pre ++ post).length + 1
        ∧ s.total_profit
            = pyRound 2 (totalProfitQ products (pre ++ post) + saleProfit products u)
        ∧ s.sales_trends
            = salesTrendsOf (dailyData products (pre ++ post))
                (endDay - (days : Int)) endDay
        ∧ s.hourly_breakdown = hourlyBreakdownOf (hourlyData (pre ++ post)) := by
  have hdp : dailyParse u.timestamp = none := by rw [hu]; rfl
  have hhp : hourlyParse u.timestamp = none := by rw [hu]; rfl
  have hdaily : dailyData products (pre ++ u :: post) = dailyData products (pre ++ post) := by
    unfold dailyData
    rw [List.foldl_append, List.foldl_append, List.foldl_cons, dailyStep_noParse hdp]
  have hhourly : hourlyData (pre ++ u :: post) = hourlyData (pre ++ post) := by
    unfold hourlyData
    rw [List.foldl_append, List.foldl_append, List.foldl_cons, hourlyStep_noParse hhp]
  have hagg : aggOf products u.product_id (pre ++ u :: post)
      = statAdd (aggOf products u.product_id (pre ++ post)) (saleContrib products u) := by
    have hb : (u.product_id == u.product_id) = true := by simp
    simp only [aggOf, statAdd, saleContrib, List.filter_append, List.filter_cons, hb,
      if_true, List.map_append, List.sum_append, List.map_cons, List.sum_cons,
      ProdStat.mk.injEq]
    refine ⟨by ring, by ring, by ring⟩
  refine ⟨hdaily, hhourly, hagg, ?_⟩
  intro endDay days s hok
  have hne : pre ++ u :: post ≠ [] := by simp
  rw [getAnalytics_ok hne hok]
  refine ⟨?_, ?_, ?_, ?_, ?_⟩
  · show pyRound 2 (totalRevenueQ (pre ++ u :: post)) = _
    have hrev : totalRevenueQ (pre ++ u :: post)
        = totalRevenueQ (pre ++ post) + u.total_price := by
      simp only [totalRevenueQ, List.map_append, List.sum_append, List.map_cons,
        List.sum_cons]
      ring
    rw [hrev]
  · show (pre ++ u :: post).length = (pre ++ post).length + 1
    simp only [List.length_append, List.length_cons]
    omega
  · show pyRound 2 (totalProfitQ products (pre ++ u :: post)) = _
    have hpr : totalProfitQ products (pre ++ u :: post)
        = totalProfitQ products (pre ++ post) + saleProfit products u := by
      simp only [totalProfitQ, List.map_append, List.sum_append, List.map_cons,
        List.sum_cons]
      ring
    rw [hpr]
  · show salesTrendsOf (dailyData products (pre ++ u :: post)) _ _ = _
    rw [hdaily]
  · show hourlyBreakdownOf (hourlyData (pre ++ u :: post)) = _
    rw [hhourly]

def wPreC8 : List Sale := [⟨1, 1, 100, Timestamp.isoT 0 12 0 none⟩]

def wUC8 : Sale := ⟨2, 1, 50, Timestamp.unparseable⟩

def wSummaryC8 : AnalyticsSummary :=
  ((getAnalytics (wPreC8 ++ wUC8 :: []) [] 0 0).toOption).getD (emptySummary 0)

/-- C8 witness: one valid sale plus one unparseable-timestamp sale of
amount 50: daily dict unchanged, total revenue includes the 50. -/
theorem C8_unparseable_witness :
    dailyData [] (wPreC8 ++ wUC8 :: []) = dailyData [] (wPreC8 ++ [])
    ∧ wSummaryC8.total_revenue
        = pyRound 2 (totalRevenueQ (wPreC8 ++ []) + wUC8.total_price) := by
  have h := C8_unparseable [] wPreC8 [] wUC8 rfl
  exact ⟨h.1, (h.2.2.2 0 0 wSummaryC8 rfl).1⟩

set_option maxRecDepth 8000 in
/-- C9: the daily bucketer's permissive parser accepts strings such as
`"01/05/2024 13:00"` (no `'T'`; `dateutil.parser.parse` succeeds) that the
hourly loop's `fromisoformat` rejects both in full and truncated to ten
characters — so this sale is counted in a `sales_trends` day bucket yet
appears in no `hourly_breakdown` bucket. -/
theorem C9_parser_divergence :
    dailyParse (Timestamp.general 3 13 0 none) = some 3
    ∧ hourlyParse (Timestamp.general 3 13 0 none) = none
    ∧ (getAnalytics [⟨1, 1, 50, Timestamp.general 3 13 0 none⟩] [] 7 7).toOption.map
        (fun s => ((s.sales_trends.map (fun t => t.sales_count)).sum,
                   (s.hourly_breakdown.map (fun hb => hb.sales_count)).sum))
      = some (1, 0) := by
  refine ⟨by with_unfolding_all decide, rfl, ?_⟩
  with_unfolding_all decide

set_option maxRecDepth 8000 in
/-- C10: the engine never re-filters the batch by the requested window: a
sale parsing to a day outside `[start, end]` is still counted in the totals
and its day still enters the `daily_data` dict that best/worst-day selection
ranges over, while every `sales_trends` date stays inside the window — and on
a concrete batch `best_day` names day 100, absent from the trend dates. -/
theorem C10_out_of_window (products : List Product) (sales : List Sale) (u : Sale)
    (du : Int) (hu : dailyParse u.timestamp = some du)
    (endDay : Int) (days : Nat) (hout : du < endDay - (days : Int) ∨ endDay < du)
    (s : AnalyticsSummary)
    (hok : getAnalytics (u :: sales) products endDay days = Except.ok s) :
    s.total_revenue = pyRound 2 (u.total_price + totalRevenueQ sales)
    ∧ s.total_sales = sales.length + 1
    ∧ (getDay (dailyData products (u :: sales)) du).isSome
    ∧ (∀ t ∈ s.sales_trends, t.date ≠ du)
    ∧ (getAnalytics [⟨1, 1, 9, Timestamp.isoT 100 5 0 none⟩] [] 7 7).toOption.map
        (fun r => (r.best_day, r.sales_trends.map (fun t => t.date)))
      = some (some 100, [0, 1, 2, 3, 4, 5, 6, 7])
    ∧ (100 : Int) ∉ ([0, 1, 2, 3, 4, 5, 6, 7] : List Int) := by
  have hne : (u :: sales) ≠ [] := by simp
  rw [getAnalytics_ok hne hok]
  refine ⟨?_, ?_, ?_, ?_, ?_, ?_⟩
  · show pyRound 2 (totalRevenueQ (u :: sales)) = _
    rw [totalRevenueQ_cons]
  · show (u :: sales).length = sales.length + 1
    simp
  · unfold dailyData
    rw [List.foldl_cons]
    exact getDay_isSome_foldl products sales _ du (dailyStep_own_day products [] u du hu)
  · intro t ht
    have htb := mem_salesTrends_bounds ht
    intro hd
    rw [hd] at htb
    rcases hout with hlt | hgt
    · omega
    · omega
  · with_unfolding_all decide
  · decide

def wSalesC10 : List Sale := [⟨1, 1, 4, Timestamp.isoT 3 5 0 none⟩]

def wUC10 : Sale := ⟨1, 1, 9, Timestamp.isoT 100 5 0 none⟩

def wSummaryC10 : AnalyticsSummary :=
  ((getAnalytics (wUC10 :: wSalesC10) [] 7 7).toOption).getD (emptySummary 0)

set_option maxRecDepth 8000 in
/-- C10 witness: a sale on day 100 against a window ending at day 7: counted
in the totals, its day present in the daily dict. -/
theorem C10_out_of_window_witness :
    wSummaryC10.total_sales = wSalesC10.length + 1
    ∧ (getDay (dailyData [] (wUC10 :: wSalesC10)) 100).isSome := by
  have h := C10_out_of_window [] wSalesC10 wUC10 100 rfl 7 7
    (Or.inr (by decide)) wSummaryC10 rfl
  exact ⟨h.2.1, h.2.2.1⟩

end KashFlow
